import Mathlib

/-!
Verification of the marine-risk-mapping ingestion pipeline.

Shallow embedding of the fetch layer (`src/pipeline/ingestion/download_ais.py`,
`src/pipeline/ingestion/download_mpa.py`) and the load layer
(`src/pipeline/database/load_data.py`).  Dates are modelled as proleptic
Gregorian ordinals (`Nat`), file contents as byte lists, network behaviour of a
single streamed GET as an inductive outcome, and the PostGIS database as a
record of per-relation row counts.
-/

/-! ## download_ais.py -/

/-- Embedding of `generate_dates` (download_ais.py lines 28-35): a `while
current <= end` loop appending `current` and stepping by one day.  A `date` is
its Gregorian ordinal, `timedelta(days=1)` is `+ 1`. -/
def generate_dates (start e : Nat) : List Nat :=
  if start ≤ e then start :: generate_dates (start + 1) e else []
termination_by e + 1 - start
decreasing_by simp_wf; omega

/-- File content at a path: `none` means the path does not exist. -/
abbrev Bytes := List Nat

/-- Concatenation of the streamed chunks, as written by the
`for chunk in response.iter_bytes(...)` loop. -/
def concatChunks (cs : List Bytes) : Bytes :=
  cs.foldl (fun acc c => acc ++ c) []

/-- Transport-level behaviour of one streamed GET (`httpx.stream`):
`connectError` is an `httpx.RequestError` raised before any byte is written,
`statusError` is a non-2xx status surfaced by `response.raise_for_status()`
(which runs before the destination file is opened), `streamError written` is
an `httpx.RequestError` raised after the chunks `written` were already written
to the destination, and `success chunks` is a complete body. -/
inductive NetResult where
  | connectError : NetResult
  | statusError : NetResult
  | streamError : List Bytes → NetResult
  | success : List Bytes → NetResult
deriving DecidableEq

/-- A network outcome other than a complete 2xx body. -/
def NetResult.isFailure : NetResult → Bool
  | .success _ => false
  | _ => true

/-- Result of one `download_file` call: the Python return value, the content of
the destination path after the call, and whether the network was contacted. -/
structure FetchResult where
  ret : Bool
  dest : Option Bytes
  networkCalled : Bool
deriving DecidableEq

/-- The `except httpx.RequestError` handler (download_ais.py lines 74-79):
`if output_path.exists(): output_path.unlink()`. -/
def unlinkIfExists : Option Bytes → Option Bytes := fun _ => none

/-- Embedding of `download_file` (download_ais.py lines 38-79).  `dest` is the
content of `output_path` before the call; `net` the transport behaviour of the
GET.  Branches, in source order: the skip check `if output_path.exists()`
(lines 52-55) returns `False` without touching the network; a `RequestError`
before any write is caught at line 74 and unlinks a (non-existent) partial
file; an `HTTPStatusError` from `raise_for_status()` (caught at line 70)
returns `False` without an unlink — the destination file was never opened; a
`RequestError` mid-stream leaves the written chunks on disk and the handler at
lines 74-79 unlinks them; on success the full body is on disk and the function
returns `True`. -/
def download_file (dest : Option Bytes) (net : NetResult) : FetchResult :=
  match dest with
  | some content => { ret := false, dest := some content, networkCalled := false }
  | none =>
    match net with
    | .connectError =>
        { ret := false, dest := unlinkIfExists none, networkCalled := true }
    | .statusError =>
        { ret := false, dest := none, networkCalled := true }
    | .streamError written =>
        { ret := false, dest := unlinkIfExists (some (concatChunks written)),
          networkCalled := true }
    | .success chunks =>
        { ret := true, dest := some (concatChunks chunks), networkCalled := true }

/-- The three fetch outcomes of the spec's data model. -/
inductive Outcome where
  | downloaded : Outcome
  | skipped : Outcome
  | failed : Outcome
deriving DecidableEq

/-- Ground-truth outcome of a unit fetch: skipped when the destination already
existed, failed when the destination was absent and the transport failed,
downloaded otherwise. -/
def trueOutcome (dest : Option Bytes) (net : NetResult) : Outcome :=
  if dest.isSome then .skipped
  else if net.isFailure then .failed
  else .downloaded

/-- The caller's a-posteriori classification (download_ais.py lines 99-108):
a `True` return is counted as downloaded; on `False` the caller re-checks
whether the destination file exists — present means skipped, absent means
failed. -/
def callerClassify (r : FetchResult) : Outcome :=
  if r.ret then .downloaded
  else if r.dest.isSome then .skipped
  else .failed

/-- Aggregate counters of `download_all_ais_data`. -/
structure RunCounts where
  downloaded : Nat
  skipped : Nat
  failed : Nat
deriving DecidableEq

/-- Observable trace of one loop iteration of `download_all_ais_data`:
the `download_file` return value, the destination content after the attempt,
whether the network was contacted, and whether
`time.sleep(DELAY_BETWEEN_DOWNLOADS)` ran before the next unit. -/
structure UnitTrace where
  ret : Bool
  destAfter : Option Bytes
  networkCalled : Bool
  slept : Bool
deriving DecidableEq

/-- The `for i, file_date in enumerate(dates, ...)` loop of
`download_all_ais_data` (download_ais.py lines 95-108).  Each unit is the
pre-state of its destination path plus its transport behaviour.  `if result:`
increments `downloaded` and sleeps; otherwise the caller re-checks file
existence to count `skipped` versus `failed`, and does not sleep. -/
def runAll : List (Option Bytes × NetResult) → RunCounts → RunCounts × List UnitTrace
  | [], counts => (counts, [])
  | (dest, net) :: rest, counts =>
    let r := download_file dest net
    let slept := r.ret
    let counts' :=
      if r.ret then { counts with downloaded := counts.downloaded + 1 }
      else if r.dest.isSome then { counts with skipped := counts.skipped + 1 }
      else { counts with failed := counts.failed + 1 }
    let next := runAll rest counts'
    (next.1, { ret := r.ret, destAfter := r.dest, networkCalled := r.networkCalled,
               slept := slept } :: next.2)

/-- Embedding of `download_all_ais_data` (download_ais.py lines 82-115),
parameterised by the per-unit pre-states and transport behaviours. -/
def download_all_ais_data (units : List (Option Bytes × NetResult)) :
    RunCounts × List UnitTrace :=
  runAll units { downloaded := 0, skipped := 0, failed := 0 }

/-! ## download_mpa.py -/

/-- Bounding box of one feature's geometry, in EPSG:4326 longitude/latitude
(the columns of `gdf.geometry.bounds`). -/
structure Bounds where
  minx : ℚ
  miny : ℚ
  maxx : ℚ
  maxy : ℚ
deriving DecidableEq

/-- `US_COAST_BBOX` (download_mpa.py line 27): `(lon_min, lat_min, lon_max,
lat_max)`. -/
def US_COAST_BBOX : ℚ × ℚ × ℚ × ℚ := (-130, 24, -65, 49)

/-- The boolean mask of `filter_us_coast` (download_mpa.py lines 124-129). -/
def usCoastMask (b : Bounds) : Bool :=
  let lonMin := US_COAST_BBOX.1
  let latMin := US_COAST_BBOX.2.1
  let lonMax := US_COAST_BBOX.2.2.1
  let latMax := US_COAST_BBOX.2.2.2
  decide (b.minx ≥ lonMin) && decide (b.maxx ≤ lonMax) &&
    decide (b.miny ≥ latMin) && decide (b.maxy ≤ latMax)

/-- Embedding of `filter_us_coast` (download_mpa.py lines 106-137) on a frame
already in EPSG:4326 (the `to_crs` branch at lines 118-120 is a no-op then; a
frame in another CRS is reprojected by the external library before this mask
is applied, so the filter always sees canonical coordinates).  `gdf[mask]`
keeps exactly the rows whose mask is true, in order. -/
def filter_us_coast (gdf : List Bounds) : List Bounds :=
  gdf.filter usCoastMask

/-- A downloaded MPA archive, abstracted to what extraction observes: the
`.gdb` directories found by `Path(tmpdir).rglob("*.gdb")`, each with the
features `gpd.read_file` yields on it. -/
structure ZipArchive where
  gdbs : List (String × List Bounds)
deriving DecidableEq

/-- Embedding of `extract_and_read_geodatabase` (download_mpa.py lines
79-103): if no `.gdb` directory is found in the extracted archive, raise
`FileNotFoundError`; otherwise read the first one. -/
def extract_and_read_geodatabase (z : ZipArchive) : Except String (List Bounds) :=
  match z.gdbs with
  | [] => .error "No .gdb directory found in downloaded zip"
  | g :: _ => .ok g.2

/-- Local state of the MPA pipeline: the archive at
`data/raw/mpa/mpa_inventory.zip` and the normalized snapshot at
`data/raw/mpa/mpa_inventory.parquet` (`none` = file absent). -/
structure MpaFs where
  zipFile : Option ZipArchive
  snapshot : Option (List Bounds)
deriving DecidableEq

/-- Transport behaviour of the single MPA archive GET; on success the body is
the archive. -/
inductive MpaNet where
  | connectError : MpaNet
  | statusError : MpaNet
  | streamError : MpaNet
  | success : ZipArchive → MpaNet
deriving DecidableEq

/-- Result of `download_mpa_zip`: the returned path's content (or the raised
exception), the zip file on disk afterwards, and whether the network was
contacted. -/
structure MpaZipResult where
  result : Except String ZipArchive
  zipAfter : Option ZipArchive
  networkCalled : Bool

/-- Embedding of `download_mpa_zip` (download_mpa.py lines 36-76).  The gate at
lines 47-49 returns the existing zip path — whatever its content — without any
network call.  Otherwise the archive is streamed; both the `HTTPStatusError`
and the `RequestError` handlers (lines 66-76) unlink any partial file and
re-raise. -/
def download_mpa_zip (zipOnDisk : Option ZipArchive) (net : MpaNet) : MpaZipResult :=
  match zipOnDisk with
  | some z => { result := .ok z, zipAfter := some z, networkCalled := false }
  | none =>
    match net with
    | .success z => { result := .ok z, zipAfter := some z, networkCalled := true }
    | .connectError =>
        { result := .error "httpx.RequestError", zipAfter := none, networkCalled := true }
    | .statusError =>
        { result := .error "httpx.HTTPStatusError", zipAfter := none, networkCalled := true }
    | .streamError =>
        { result := .error "httpx.RequestError", zipAfter := none, networkCalled := true }

/-- Result of a `download_mpa_data` run: normal return or propagated
exception, plus the final local state. -/
structure MpaRunResult where
  result : Except String Unit
  fs : MpaFs

/-- Embedding of `download_mpa_data` (download_mpa.py lines 152-179).  The
idempotency gate at lines 157-159 returns when the snapshot exists.  Otherwise:
download the zip (exceptions propagate), extract and read the geodatabase
(a `FileNotFoundError` propagates with no snapshot written), filter to the US
coast, save the snapshot, and unlink the zip. -/
def download_mpa_data (fs : MpaFs) (net : MpaNet) : MpaRunResult :=
  match fs.snapshot with
  | some snap => { result := .ok (), fs := { fs with snapshot := some snap } }
  | none =>
    let zr := download_mpa_zip fs.zipFile net
    match zr.result with
    | .error e => { result := .error e, fs := { fs with zipFile := zr.zipAfter } }
    | .ok z =>
      match extract_and_read_geodatabase z with
      | .error e => { result := .error e, fs := { fs with zipFile := zr.zipAfter } }
      | .ok gdf =>
        let gdfUs := filter_us_coast gdf
        { result := .ok (), fs := { zipFile := none, snapshot := some gdfUs } }

/-! ## load_data.py -/

/-- Row counts of the three durable PostGIS relations. -/
structure Db where
  mpa : Nat
  cetacean : Nat
  ais : Nat
deriving DecidableEq

/-- One AIS source parquet file: its name (a stand-in for the lexical filename
`ais-YYYY-MM-DD.parquet`, whose lexical order is the date order) and its row
count. -/
structure AisFile where
  name : Nat
  rows : Nat
deriving DecidableEq

/-- Filename order used by `sorted(AIS_DIR.glob("*.parquet"))`. -/
def fileLe (a b : AisFile) : Prop := a.name ≤ b.name

instance : DecidableRel fileLe := fun a b => inferInstanceAs (Decidable (a.name ≤ b.name))

/-- One pass of the staging dance for a single file (load_data.py lines
173-243): read the file, flatten to WKT rows, `CREATE TEMP TABLE ais_staging`,
`COPY` the buffer into it, `INSERT INTO ais_positions ... SELECT ... FROM
ais_staging`, `DROP TABLE ais_staging`.  Net effect on the durable state: the
target relation gains the file's rows; the staging relation does not outlive
the iteration. -/
def load_ais_file (db : Db) (f : AisFile) : Db :=
  { db with ais := db.ais + f.rows }

/-- Observable result of one `load_ais_data` call: the database afterwards,
the running total logged after each file (`total so far` at lines 245-252),
the final total logged at line 254, and the Python return value — the
function is annotated `-> None` and contains no `return` of the total. -/
structure AisLoadResult where
  db : Db
  runningTotals : List Nat
  finalLogged : Option Nat
  ret : Option Nat
deriving DecidableEq

/-- The per-file loop of `load_ais_data`: fold over the sorted files,
threading the database, `total_loaded`, and the list of logged running
totals. -/
def aisLoop (files : List AisFile) (db : Db) (total : Nat) (logs : List Nat) :
    Db × Nat × List Nat :=
  match files with
  | [] => (db, total, logs)
  | f :: rest =>
    let db' := load_ais_file db f
    let total' := total + f.rows
    aisLoop rest db' total' (logs ++ [total'])

/-- Embedding of `load_ais_data` (load_data.py lines 152-254).  `files` is the
content of `AIS_DIR.glob("*.parquet")`; the code sorts it, returns early with
a warning when it is empty, and otherwise runs the staging loop, accumulating
`total_loaded` and logging it after each file and once more at the end. -/
def load_ais_data (files : List AisFile) (db : Db) : AisLoadResult :=
  let sortedFiles := files.insertionSort fileLe
  match sortedFiles with
  | [] => { db := db, runningTotals := [], finalLogged := none, ret := none }
  | fs =>
    let r := aisLoop fs db 0 []
    { db := r.1, runningTotals := r.2.2, finalLogged := some r.2.1, ret := none }

/-- Local source files seen by the moderate-volume loaders: the MPA snapshot
and the cetacean parquet (modelled by their feature/row counts; `none` = file
absent), plus the discovered AIS parquet files. -/
structure DataFs where
  mpaFile : Option Nat
  cetaceanFile : Option Nat
  aisFiles : List AisFile
deriving DecidableEq

/-- Embedding of `load_mpa_data` (load_data.py lines 39-104): if the snapshot
file is absent, warn and return; otherwise read it and issue one
`execute_values` insert of all its rows into `marine_protected_areas`. -/
def load_mpa_data (fs : DataFs) (db : Db) : Db :=
  match fs.mpaFile with
  | none => db
  | some n => { db with mpa := db.mpa + n }

/-- Embedding of `load_cetacean_data` (load_data.py lines 107-149): if the
source file is absent, warn and return; otherwise insert all its rows into
`cetacean_sightings` with one `execute_values` call. -/
def load_cetacean_data (fs : DataFs) (db : Db) : Db :=
  match fs.cetaceanFile with
  | none => db
  | some n => { db with cetacean := db.cetacean + n }

/-- Result of a `load_all_data` run: the database afterwards, the loaders that
were invoked (in order, by table name), and the final row counts logged at
lines 282-286, in the order the code queries them. -/
structure LoadAllResult where
  db : Db
  invoked : List String
  finalCounts : List (String × Nat)
deriving DecidableEq

/-- Embedding of `load_all_data` (load_data.py lines 257-291).  For each table
in the declared order `marine_protected_areas`, `cetacean_sightings`,
`ais_positions`: query `SELECT COUNT(*)`; if the count is positive, log and
skip; otherwise invoke the table's loader.  Afterwards the final counts of all
three tables are queried and logged. -/
def load_all_data (fs : DataFs) (db : Db) : LoadAllResult :=
  let step1 :=
    if 0 < db.mpa then (db, ([] : List String))
    else (load_mpa_data fs db, ["marine_protected_areas"])
  let step2 :=
    if 0 < step1.1.cetacean then step1
    else (load_cetacean_data fs step1.1, step1.2 ++ ["cetacean_sightings"])
  let step3 :=
    if 0 < step2.1.ais then step2
    else ((load_ais_data fs.aisFiles step2.1).db, step2.2 ++ ["ais_positions"])
  { db := step3.1
    invoked := step3.2
    finalCounts := [("ais_positions", step3.1.ais),
                    ("cetacean_sightings", step3.1.cetacean),
                    ("marine_protected_areas", step3.1.mpa)] }

/-! ## Theorems about the fetch layer -/

/-- The date enumerator is the contiguous ascending range from `start` to
`e` inclusive. -/
theorem generate_dates_eq_range' (s e : Nat) :
    generate_dates s e = List.range' s (e + 1 - s) := by
  generalize hn : e + 1 - s = n
  induction n generalizing s with
  | zero =>
    have h : ¬ s ≤ e := by omega
    rw [generate_dates, if_neg h]
    rfl
  | succ n ih =>
    have h : s ≤ e := by omega
    have h' : e + 1 - (s + 1) = n := by omega
    rw [generate_dates, if_pos h, List.range'_succ, ih (s + 1) h']

/-- C2: for every closed date interval with `start ≤ end`, `generate_dates`
returns exactly `(end - start) + 1` dates, beginning at `start`, ending at
`end`, each element one day after the previous, strictly ascending, with no
duplicates. -/
theorem generate_dates_spec (s e : Nat) (h : s ≤ e) :
    (generate_dates s e).length = e - s + 1 ∧
    (generate_dates s e).head? = some s ∧
    (generate_dates s e).getLast? = some e ∧
    List.Chain' (fun a b => b = a + 1) (generate_dates s e) ∧
    List.Sorted (· < ·) (generate_dates s e) ∧
    (generate_dates s e).Nodup := by
  have hn : e + 1 - s = (e - s) + 1 := by omega
  rw [generate_dates_eq_range', hn]
  refine ⟨List.length_range' .., ?_, ?_, ?_, ?_, ?_⟩
  · rw [List.range'_succ]
    rfl
  · rw [List.getLast?_range']
    have h1 : ¬ (e - s + 1 = 0) := by omega
    have h2 : s + (e - s + 1) - 1 = e := by omega
    rw [if_neg h1, h2]
  · rw [List.range'_succ]
    exact List.chain_succ_range' s (e - s) 1
  · exact List.pairwise_lt_range' s (e - s + 1)
  · exact List.nodup_range' s (e - s + 1)

/-- Witness for C2 at the interval `[3, 5]`. -/
theorem generate_dates_spec_witness :
    (generate_dates 3 5).length = 5 - 3 + 1 ∧
    (generate_dates 3 5).getLast? = some 5 :=
  ⟨(generate_dates_spec 3 5 (by decide)).1,
   (generate_dates_spec 3 5 (by decide)).2.2.1⟩

/-- C1: whenever a unit fetch actually contacts the network and the transport
fails (connection error, non-2xx status, or an error mid-stream),
`download_file` returns `False` and the destination path is absent afterwards
— never a truncated file. -/
theorem download_file_failure_cleanup (dest : Option Bytes) (net : NetResult)
    (hfail : net.isFailure = true)
    (hnet : (download_file dest net).networkCalled = true) :
    (download_file dest net).ret = false ∧ (download_file dest net).dest = none := by
  cases dest with
  | some content => simp [download_file] at hnet
  | none =>
    cases net with
    | success chunks => simp [NetResult.isFailure] at hfail
    | connectError => exact ⟨rfl, rfl⟩
    | statusError => exact ⟨rfl, rfl⟩
    | streamError written => exact ⟨rfl, rfl⟩

/-- Witness for C1: a mid-stream failure after two chunks leaves no file. -/
theorem download_file_failure_cleanup_witness :
    (download_file none (NetResult.streamError [[1], [2]])).ret = false ∧
    (download_file none (NetResult.streamError [[1], [2]])).dest = none :=
  download_file_failure_cleanup none (NetResult.streamError [[1], [2]])
    (by decide) (by decide)

/-- C3: a unit whose destination path already exists (in particular any
non-empty one) is skipped: `download_file` returns without a network call,
leaves the file unchanged, and the caller classifies the unit as skipped. -/
theorem download_file_skip (content : Bytes) (net : NetResult)
    (hne : content ≠ []) :
    download_file (some content) net =
      { ret := false, dest := some content, networkCalled := false } ∧
    callerClassify (download_file (some content) net) = Outcome.skipped :=
  ⟨rfl, rfl⟩

/-- Witness for C3 at a one-byte existing file. -/
theorem download_file_skip_witness :
    download_file (some [7]) NetResult.statusError =
      { ret := false, dest := some [7], networkCalled := false } ∧
    callerClassify (download_file (some [7]) NetResult.statusError) = Outcome.skipped :=
  download_file_skip [7] NetResult.statusError (by decide)

/-- C9: the boolean returned by `download_file` is `True` exactly when a new
file was downloaded, so `False` conflates the skipped and failed outcomes; the
caller's re-check of destination existence recovers the true outcome. -/
theorem download_file_return_conflation (dest : Option Bytes) (net : NetResult) :
    ((download_file dest net).ret = true ↔ trueOutcome dest net = Outcome.downloaded) ∧
    callerClassify (download_file dest net) = trueOutcome dest net := by
  cases dest <;> cases net <;>
    simp [download_file, trueOutcome, callerClassify, NetResult.isFailure, unlinkIfExists]

/-- Outcome of a traced loop iteration, as the caller counts it. -/
def traceOutcome (t : UnitTrace) : Outcome :=
  callerClassify { ret := t.ret, dest := t.destAfter, networkCalled := t.networkCalled }

/-- A traced iteration is counted as downloaded exactly when `download_file`
returned `True`. -/
theorem traceOutcome_downloaded (t : UnitTrace) :
    traceOutcome t = Outcome.downloaded ↔ t.ret = true := by
  obtain ⟨ret, destAfter, networkCalled, slept⟩ := t
  cases ret <;> cases destAfter <;> simp [traceOutcome, callerClassify]

/-- In every run of the fetch loop, the sleep flag of a traced iteration
equals the `download_file` return value of that iteration. -/
theorem runAll_slept (units : List (Option Bytes × NetResult)) (counts : RunCounts) :
    ∀ t ∈ (runAll units counts).2, t.slept = t.ret := by
  induction units generalizing counts with
  | nil =>
    intro t ht
    simp [runAll] at ht
  | cons u rest ih =>
    intro t ht
    obtain ⟨dest, net⟩ := u
    simp only [runAll, List.mem_cons] at ht
    rcases ht with h | h
    · rw [h]
    · exact ih _ t h

/-- C7 amended: in the fetch loop, the fixed delay `DELAY_BETWEEN_DOWNLOADS`
is observed after an attempt exactly when that attempt ended in the downloaded
outcome; both skipped and failed units proceed to the next unit without a
pause. -/
theorem sleep_iff_downloaded (units : List (Option Bytes × NetResult))
    (t : UnitTrace) (ht : t ∈ (download_all_ais_data units).2) :
    t.slept = true ↔ traceOutcome t = Outcome.downloaded := by
  rw [traceOutcome_downloaded, runAll_slept units _ t ht]

/-- Witness for the amended C7: a successful download is followed by the
pause. -/
theorem sleep_iff_downloaded_witness :
    (⟨true, some [1], true, true⟩ : UnitTrace).slept = true ↔
      traceOutcome ⟨true, some [1], true, true⟩ = Outcome.downloaded :=
  sleep_iff_downloaded [(none, NetResult.success [[1]])]
    ⟨true, some [1], true, true⟩ (by decide)

/-- C7 counterexample: in a run with a failing unit followed by another unit,
the failed attempt — non-skipped, the network was contacted and the caller
counts it as failed — is not followed by the pause, contradicting the claim
that every non-skipped attempt is. -/
theorem no_sleep_after_failed :
    (download_all_ais_data
        [(none, NetResult.connectError), (none, NetResult.success [[1]])]).2.head? =
      some ⟨false, none, true, false⟩ ∧
    traceOutcome ⟨false, none, true, false⟩ = Outcome.failed ∧
    (download_all_ais_data
        [(none, NetResult.connectError), (none, NetResult.success [[1]])]).1 =
      { downloaded := 1, skipped := 0, failed := 1 } := by
  decide

/-- C5: `filter_us_coast` keeps exactly the features whose bounding box lies
entirely within `US_COAST_BBOX = (-130, 24, -65, 49)`; a box straddling an
edge is excluded whole, as the two example boxes show. -/
theorem filter_us_coast_spec :
    (∀ (gdf : List Bounds) (b : Bounds),
      b ∈ filter_us_coast gdf ↔
        b ∈ gdf ∧ (b.minx ≥ -130 ∧ b.maxx ≤ -65 ∧ b.miny ≥ 24 ∧ b.maxy ≤ 49)) ∧
    filter_us_coast [⟨-70, 30, -68, 32⟩, ⟨-66, 30, -64, 32⟩] = [⟨-70, 30, -68, 32⟩] := by
  constructor
  · intro gdf b
    rw [filter_us_coast, List.mem_filter]
    simp only [usCoastMask, US_COAST_BBOX, Bool.and_eq_true, decide_eq_true_eq]
    tauto
  · decide

/-! ## Theorems about the load layer -/

/-- Sum of the row counts of a list of source files. -/
def sumRows (files : List AisFile) : Nat :=
  (files.map AisFile.rows).sum

/-- Running totals produced by accumulating a list of row counts on top of a
starting total `t`. -/
def runningFrom (t : Nat) : List Nat → List Nat
  | [] => []
  | r :: rs => (t + r) :: runningFrom (t + r) rs

/-- The i-th running total is the starting total plus the sum of the first
`i + 1` row counts. -/
theorem runningFrom_getElem (t : Nat) (l : List Nat) (i : Nat) (h : i < l.length) :
    (runningFrom t l)[i]? = some (t + (l.take (i + 1)).sum) := by
  induction l generalizing t i with
  | nil => simp at h
  | cons x xs ih =>
    cases i with
    | zero => simp [runningFrom]
    | succ n =>
      have hn : n < xs.length := by simpa using h
      simp only [runningFrom, List.take_succ_cons, List.sum_cons,
        List.getElem?_cons_succ]
      rw [ih (t + x) n hn]
      congr 1
      omega

/-- Characterization of the per-file staging loop: it adds the total row count
to `ais_positions`, leaves the other relations alone, accumulates
`total_loaded`, and appends the running totals to the log. -/
theorem aisLoop_spec (files : List AisFile) (db : Db) (total : Nat) (logs : List Nat) :
    aisLoop files db total logs =
      ({ db with ais := db.ais + sumRows files }, total + sumRows files,
        logs ++ runningFrom total (files.map AisFile.rows)) := by
  induction files generalizing db total logs with
  | nil => simp [aisLoop, sumRows, runningFrom]
  | cons f rest ih =>
    simp only [aisLoop, load_ais_file, sumRows, List.map_cons, List.sum_cons,
      runningFrom]
    rw [ih]
    refine congrArg₂ Prod.mk ?_ (congrArg₂ Prod.mk ?_ ?_)
    · simp [sumRows, Nat.add_assoc]
    · simp [sumRows, Nat.add_assoc]
    · simp [sumRows]

/-- `load_mpa_data` writes only to `marine_protected_areas`. -/
theorem load_mpa_data_other (fs : DataFs) (db : Db) :
    (load_mpa_data fs db).cetacean = db.cetacean ∧
    (load_mpa_data fs db).ais = db.ais := by
  cases h : fs.mpaFile <;> simp [load_mpa_data, h]

/-- `load_cetacean_data` writes only to `cetacean_sightings`. -/
theorem load_cetacean_data_other (fs : DataFs) (db : Db) :
    (load_cetacean_data fs db).mpa = db.mpa ∧
    (load_cetacean_data fs db).ais = db.ais := by
  cases h : fs.cetaceanFile <;> simp [load_cetacean_data, h]

/-- `load_ais_data` writes only to `ais_positions`. -/
theorem load_ais_data_other (files : List AisFile) (db : Db) :
    (load_ais_data files db).db.mpa = db.mpa ∧
    (load_ais_data files db).db.cetacean = db.cetacean := by
  unfold load_ais_data
  cases h : files.insertionSort fileLe with
  | nil => simp
  | cons f fs => simp [aisLoop_spec]

/-- C6 amended: for every non-empty sorted sequence of source files, the
Staged Bulk Loader processes the files in sorted order, logging after each
file a running total equal to the sum of the row counts of the files processed
so far; once all files are processed it logs the final total — the sum over
all files, by which the target relation has grown — but the function returns
`None` (the final total is reported in the log, not returned). -/
theorem load_ais_data_spec (files : List AisFile) (db : Db)
    (hsorted : List.Sorted fileLe files) (hne : files ≠ []) :
    (load_ais_data files db).runningTotals =
      runningFrom 0 (files.map AisFile.rows) ∧
    (∀ i, i < files.length →
      (load_ais_data files db).runningTotals[i]? =
        some (((files.map AisFile.rows).take (i + 1)).sum)) ∧
    (load_ais_data files db).finalLogged = some (sumRows files) ∧
    (load_ais_data files db).db.ais = db.ais + sumRows files ∧
    (load_ais_data files db).db.mpa = db.mpa ∧
    (load_ais_data files db).db.cetacean = db.cetacean ∧
    (load_ais_data files db).ret = none := by
  have hmain :
      (load_ais_data files db).runningTotals =
        runningFrom 0 (files.map AisFile.rows) ∧
      (load_ais_data files db).finalLogged = some (sumRows files) ∧
      (load_ais_data files db).db.ais = db.ais + sumRows files ∧
      (load_ais_data files db).db.mpa = db.mpa ∧
      (load_ais_data files db).db.cetacean = db.cetacean ∧
      (load_ais_data files db).ret = none := by
    unfold load_ais_data
    rw [hsorted.insertionSort_eq]
    cases files with
    | nil => exact absurd rfl hne
    | cons f fs => simp [aisLoop_spec, sumRows]
  refine ⟨hmain.1, ?_, hmain.2⟩
  intro i hi
  rw [hmain.1, runningFrom_getElem 0 (files.map AisFile.rows) i (by simpa using hi)]
  simp

/-- Witness for the amended C6: three sorted files of ten rows each. -/
theorem load_ais_data_spec_witness :
    (load_ais_data [⟨1, 10⟩, ⟨2, 10⟩, ⟨3, 10⟩] ⟨0, 0, 0⟩).runningTotals =
      runningFrom 0 ([⟨1, 10⟩, ⟨2, 10⟩, ⟨3, 10⟩].map AisFile.rows) ∧
    (load_ais_data [⟨1, 10⟩, ⟨2, 10⟩, ⟨3, 10⟩] ⟨0, 0, 0⟩).finalLogged =
      some (sumRows [⟨1, 10⟩, ⟨2, 10⟩, ⟨3, 10⟩]) ∧
    (load_ais_data [⟨1, 10⟩, ⟨2, 10⟩, ⟨3, 10⟩] ⟨0, 0, 0⟩).ret = none :=
  have h := load_ais_data_spec [⟨1, 10⟩, ⟨2, 10⟩, ⟨3, 10⟩] ⟨0, 0, 0⟩
    (by decide) (by decide)
  ⟨h.1, h.2.2.1, h.2.2.2.2.2.2⟩

/-- C6 counterexample: on three files of ten rows each the running totals are
10, 20, 30 and the final logged total is 30, but the function's return value
is `None`, not the final total 30 that the claim says is returned. -/
theorem load_ais_data_ret_counterexample :
    (load_ais_data [⟨1, 10⟩, ⟨2, 10⟩, ⟨3, 10⟩] ⟨0, 0, 0⟩).runningTotals =
      [10, 20, 30] ∧
    (load_ais_data [⟨1, 10⟩, ⟨2, 10⟩, ⟨3, 10⟩] ⟨0, 0, 0⟩).finalLogged = some 30 ∧
    (load_ais_data [⟨1, 10⟩, ⟨2, 10⟩, ⟨3, 10⟩] ⟨0, 0, 0⟩).db.ais = 30 ∧
    ¬ (load_ais_data [⟨1, 10⟩, ⟨2, 10⟩, ⟨3, 10⟩] ⟨0, 0, 0⟩).ret = some 30 := by
  decide

/-- C4: for every database state, a target relation whose row count is
positive has its loader skipped by `load_all_data` and its row count
unchanged; hence on a state where all three relations are non-empty the
orchestrator invokes no loader and alters no relation. -/
theorem load_all_data_table_idempotency (fs : DataFs) (db : Db) :
    (0 < db.mpa →
      "marine_protected_areas" ∉ (load_all_data fs db).invoked ∧
      (load_all_data fs db).db.mpa = db.mpa) ∧
    (0 < db.cetacean →
      "cetacean_sightings" ∉ (load_all_data fs db).invoked ∧
      (load_all_data fs db).db.cetacean = db.cetacean) ∧
    (0 < db.ais →
      "ais_positions" ∉ (load_all_data fs db).invoked ∧
      (load_all_data fs db).db.ais = db.ais) ∧
    (0 < db.mpa → 0 < db.cetacean → 0 < db.ais →
      (load_all_data fs db).db = db ∧ (load_all_data fs db).invoked = []) := by
  obtain ⟨hmc, hma⟩ := load_mpa_data_other fs db
  by_cases h1 : 0 < db.mpa <;>
    by_cases h2 : 0 < db.cetacean <;>
      by_cases h3 : 0 < db.ais <;>
        simp_all [load_all_data, load_mpa_data_other, load_cetacean_data_other,
          load_ais_data_other, hmc, hma]

/-- Witness for C4: on a state where all three relations are populated,
nothing is invoked and nothing changes. -/
theorem load_all_data_table_idempotency_witness :
    (load_all_data ⟨some 5, some 7, [⟨1, 10⟩]⟩ ⟨3, 4, 5⟩).db = ⟨3, 4, 5⟩ ∧
    (load_all_data ⟨some 5, some 7, [⟨1, 10⟩]⟩ ⟨3, 4, 5⟩).invoked = [] :=
  (load_all_data_table_idempotency ⟨some 5, some 7, [⟨1, 10⟩]⟩ ⟨3, 4, 5⟩).2.2.2
    (by decide) (by decide) (by decide)

/-! ## Theorems about the archive normalizer -/

/-- C8: when the snapshot does not yet exist and the archive obtained by
`download_mpa_zip` contains no `.gdb` directory, `download_mpa_data` aborts
with the `FileNotFoundError` of `extract_and_read_geodatabase` and the
normalized snapshot file still does not exist after the failed run. -/
theorem download_mpa_data_no_gdb_aborts (fs : MpaFs) (net : MpaNet) (z : ZipArchive)
    (hsnap : fs.snapshot = none)
    (hzip : (download_mpa_zip fs.zipFile net).result = Except.ok z)
    (hnogdb : z.gdbs = []) :
    (download_mpa_data fs net).result =
      Except.error "No .gdb directory found in downloaded zip" ∧
    (download_mpa_data fs net).fs.snapshot = none := by
  unfold download_mpa_data
  rw [hsnap]
  simp only [hzip, extract_and_read_geodatabase, hnogdb]
  exact ⟨trivial, trivial⟩

/-- Witness for C8: a pre-existing archive with no `.gdb` directory inside. -/
theorem download_mpa_data_no_gdb_aborts_witness :
    (download_mpa_data ⟨some ⟨[]⟩, none⟩ MpaNet.statusError).result =
      Except.error "No .gdb directory found in downloaded zip" ∧
    (download_mpa_data ⟨some ⟨[]⟩, none⟩ MpaNet.statusError).fs.snapshot = none :=
  download_mpa_data_no_gdb_aborts ⟨some ⟨[]⟩, none⟩ MpaNet.statusError ⟨[]⟩
    rfl rfl rfl

/-- C10: whenever the local archive zip exists — whatever its content, and in
particular also when the normalized snapshot does not yet exist —
`download_mpa_zip` returns the existing zip without any network call and
leaves the filesystem unchanged. -/
theorem download_mpa_zip_existing_skips (z : ZipArchive) (snap : Option (List Bounds))
    (net : MpaNet) :
    download_mpa_zip (MpaFs.mk (some z) snap).zipFile net =
      { result := Except.ok z, zipAfter := some z, networkCalled := false } :=
  rfl
